import Mathlib

/-!
Shallow embedding of the task-board backend (Board / Task / Status CRUD
controllers over a relational store).  The JavaScript controllers are
translated into pure Lean functions over an explicit `DB` state:

* `boardController.js`  → `getBoards`, `createBoard`, `updateBoard`, `deleteBoard`
* `taskController.js`   → `resolveStatus`, `createTask`, `updateTask`, `deleteTask`
* `statusController.js` → `getStatuses`, `createStatus`, `updateStatus`, `deleteStatus`

Request-body values are modelled by `JsVal` (absent field, null, string,
integer), with JavaScript truthiness, `String(...)` coercion and
`parseInt(..., 10)` semantics made explicit.  Each error return site of the
controllers is tagged with the error kind the specification assigns to it
(`ValidationError` ↦ 400, `ConflictError` ↦ 400, `NotFoundError` ↦ 404),
keyed by the error message of the controller.
-/

namespace TaskBoard

/-- A JavaScript value as it can appear in a request body field:
absent (`undefined`), `null`, a string, or an integer number. -/
inductive JsVal where
  | undef
  | null
  | str (s : String)
  | num (n : Int)
deriving DecidableEq, Repr

/-- JavaScript truthiness of a `JsVal`: `undefined`, `null`, the empty
string and `0` are falsy; every other modelled value is truthy. -/
def JsVal.truthy : JsVal → Bool
  | .undef => false
  | .null  => false
  | .str s => s ≠ ""
  | .num n => n ≠ 0

/-- Whitespace characters stripped by JavaScript string trimming (the
subset relevant to the modelled inputs). -/
def isWsChar (c : Char) : Bool :=
  c == ' ' || c == '\t' || c == '\n' || c == '\r'

/-- JavaScript `s.trim()`: drop whitespace from both ends. -/
def jsTrim (s : String) : String :=
  ⟨((s.data.dropWhile isWsChar).reverse.dropWhile isWsChar).reverse⟩

/-- The check used by every controller that validates a name or title
field: the value must be a string whose trimmed form is non-empty. -/
def JsVal.isNonEmptyString : JsVal → Bool
  | .str s => jsTrim s ≠ ""
  | _ => false

/-- JavaScript `String(v)` coercion for the modelled values. -/
def JsVal.jsToString : JsVal → String
  | .undef => "undefined"
  | .null  => "null"
  | .str s => s
  | .num n => toString n

/-- Value of a list of decimal digit characters. -/
def digitsVal (cs : List Char) : Nat :=
  cs.foldl (fun a c => a * 10 + (c.toNat - 48)) 0

/-- Core of parseInt on a whitespace-stripped character list: optional sign
followed by a maximal run of digits; no digits means `NaN` (`none`). -/
def parseIntCore (cs : List Char) : Option Int :=
  match cs with
  | '-' :: rest =>
      let ds := rest.takeWhile Char.isDigit
      if ds.isEmpty then none else some (-(digitsVal ds : Int))
  | '+' :: rest =>
      let ds := rest.takeWhile Char.isDigit
      if ds.isEmpty then none else some ((digitsVal ds : Int))
  | _ =>
      let ds := cs.takeWhile Char.isDigit
      if ds.isEmpty then none else some ((digitsVal ds : Int))

/-- JavaScript `parseInt(v, 10)`: `undefined` and `null` give `NaN`
(modelled as `none`); a number is already an integer here; a string is
parsed after skipping leading whitespace. -/
def parseIntJs : JsVal → Option Int
  | .undef => none
  | .null  => none
  | .num n => some n
  | .str s =>
      parseIntCore (s.data.dropWhile isWsChar)

/-- A Board row. -/
structure Board where
  id : Int
  name : String
  createdAt : Nat
deriving DecidableEq, Repr

/-- A Status row. -/
structure Status where
  id : Int
  name : String
  createdAt : Nat
deriving DecidableEq, Repr

/-- A Task row: owned by a Board, optionally referencing a Status. -/
structure Task where
  id : Int
  boardId : Int
  title : String
  description : Option String
  statusId : Option Int
  createdAt : Nat
deriving DecidableEq, Repr

/-- The relational store: the three tables, the serial-id counters, and a
monotone clock standing in for `createdAt` timestamps. -/
structure DB where
  boards : List Board
  statuses : List Status
  tasks : List Task
  nextBoardId : Int
  nextStatusId : Int
  nextTaskId : Int
  clock : Nat
deriving DecidableEq, Repr

/-- The empty store a fresh deployment starts from. -/
def DB.init : DB :=
  { boards := [], statuses := [], tasks := [],
    nextBoardId := 1, nextStatusId := 1, nextTaskId := 1, clock := 0 }

/-- The error kinds of the specification; each controller error return
site is tagged with the kind the spec assigns to its message. -/
inductive ErrKind where
  | validation
  | notFound
  | conflict
deriving DecidableEq, Repr

/-- HTTP status code for each error kind. -/
def ErrKind.httpStatus : ErrKind → Nat
  | .validation => 400
  | .conflict => 400
  | .notFound => 404

/-- A typed error: kind plus the error message of the controller. -/
structure Err where
  kind : ErrKind
  msg : String
deriving DecidableEq, Repr

/-- A Board together with its eagerly attached Tasks, as returned by
`getBoards` (`include: { tasks: true }`). -/
structure BoardWithTasks where
  board : Board
  tasks : List Task
deriving DecidableEq, Repr

/-- Controller getBoards: all boards ordered by `createdAt` descending, each with
the tasks whose `boardId` matches it. -/
def getBoards (db : DB) : List BoardWithTasks :=
  (db.boards.mergeSort (fun a b => decide (b.createdAt ≤ a.createdAt))).map
    (fun b => { board := b, tasks := db.tasks.filter (fun t => t.boardId == b.id) })

/-- Controller createBoard: name must be a non-empty string after trimming; the
trimmed name must not already exist; then a new row is inserted. -/
def createBoard (db : DB) (name : JsVal) : Except Err (Board × DB) :=
  if name.isNonEmptyString then
    let trimmedName := name.jsToString |> jsTrim
    match db.boards.find? (fun b => b.name == trimmedName) with
    | some _ => .error ⟨.conflict, "Board name already exists"⟩
    | none =>
        let b : Board := { id := db.nextBoardId, name := trimmedName, createdAt := db.clock }
        .ok (b, { db with boards := db.boards ++ [b],
                          nextBoardId := db.nextBoardId + 1,
                          clock := db.clock + 1 })
  else .error ⟨.validation, "Board name is required"⟩

/-- Controller updateBoard: parse the id, validate the name, require the board to
exist, reject a name held by a board with a different id, then rename. -/
def updateBoard (db : DB) (id : JsVal) (name : JsVal) : Except Err (Board × DB) :=
  match parseIntJs id with
  | none => .error ⟨.validation, "Invalid board id"⟩
  | some boardId =>
    if name.isNonEmptyString then
      let trimmedName := name.jsToString |> jsTrim
      match db.boards.find? (fun b => b.id == boardId) with
      | none => .error ⟨.notFound, "Board not found"⟩
      | some existing =>
        match db.boards.find? (fun b => b.name == trimmedName && b.id != boardId) with
        | some _ => .error ⟨.conflict, "Another board with this name already exists"⟩
        | none =>
          let updated := { existing with name := trimmedName }
          let boards := db.boards.map
            (fun b => if b.id == boardId then { b with name := trimmedName } else b)
          .ok (updated, { db with boards := boards })
    else .error ⟨.validation, "Board name is required"⟩

/-- Controller deleteBoard: parse the id, require the board to exist, delete the
tasks of the board, then delete the board; returns a confirmation message. -/
def deleteBoard (db : DB) (id : JsVal) : Except Err (String × DB) :=
  match parseIntJs id with
  | none => .error ⟨.validation, "Invalid board id"⟩
  | some boardId =>
    match db.boards.find? (fun b => b.id == boardId) with
    | none => .error ⟨.notFound, "Board not found"⟩
    | some _ =>
      .ok ("Board and its tasks deleted successfully",
        { db with tasks := db.tasks.filter (fun t => ¬ t.boardId == boardId),
                  boards := db.boards.filter (fun b => ¬ b.id == boardId) })

/-- Controller getStatuses: all statuses ordered by `createdAt` ascending. -/
def getStatuses (db : DB) : List Status :=
  db.statuses.mergeSort (fun a b => decide (a.createdAt ≤ b.createdAt))

/-- Controller createStatus: same validation pattern as `createBoard`. -/
def createStatus (db : DB) (name : JsVal) : Except Err (Status × DB) :=
  if name.isNonEmptyString then
    let trimmed := name.jsToString |> jsTrim
    match db.statuses.find? (fun s => s.name == trimmed) with
    | some _ => .error ⟨.conflict, "Status name already exists"⟩
    | none =>
        let s : Status := { id := db.nextStatusId, name := trimmed, createdAt := db.clock }
        .ok (s, { db with statuses := db.statuses ++ [s],
                          nextStatusId := db.nextStatusId + 1,
                          clock := db.clock + 1 })
  else .error ⟨.validation, "Status name is required"⟩

/-- Controller updateStatus: parse the id, validate the name, require the status to
exist, reject a name held by a status with a different id, then rename. -/
def updateStatus (db : DB) (id : JsVal) (name : JsVal) : Except Err (Status × DB) :=
  match parseIntJs id with
  | none => .error ⟨.validation, "Invalid status id"⟩
  | some statusId =>
    if name.isNonEmptyString then
      let trimmed := name.jsToString |> jsTrim
      match db.statuses.find? (fun s => s.id == statusId) with
      | none => .error ⟨.notFound, "Status not found"⟩
      | some existing =>
        match db.statuses.find? (fun s => s.name == trimmed) with
        | some conflict =>
          if conflict.id ≠ statusId then
            .error ⟨.conflict, "Another status with this name already exists"⟩
          else
            let statuses := db.statuses.map
              (fun s => if s.id == statusId then { s with name := trimmed } else s)
            .ok ({ existing with name := trimmed }, { db with statuses := statuses })
        | none =>
          let statuses := db.statuses.map
            (fun s => if s.id == statusId then { s with name := trimmed } else s)
          .ok ({ existing with name := trimmed }, { db with statuses := statuses })
    else .error ⟨.validation, "Status name is required"⟩

/-- Controller deleteStatus: parse the id, require the status to exist, null the
`statusId` of every task referencing it, then delete the status row;
returns a confirmation message. -/
def deleteStatus (db : DB) (id : JsVal) : Except Err (String × DB) :=
  match parseIntJs id with
  | none => .error ⟨.validation, "Invalid status id"⟩
  | some statusId =>
    match db.statuses.find? (fun s => s.id == statusId) with
    | none => .error ⟨.notFound, "Status not found"⟩
    | some _ =>
      .ok ("Status deleted and tasks unlinked",
        { db with
            tasks := db.tasks.map
              (fun t => if t.statusId == some statusId then { t with statusId := none } else t),
            statuses := db.statuses.filter (fun s => ¬ s.id == statusId) })

/-- The body of a task create/update request. -/
structure TaskBody where
  title : JsVal
  description : JsVal
  boardId : JsVal
  statusId : JsVal
  statusName : JsVal
deriving DecidableEq, Repr

/-- Helper resolveStatus: the shared status-resolution logic.  A missing or
null `statusId` fails with `NotFoundError` regardless of `statusName`
(the name is never looked up); an unparseable `statusId` fails with
`ValidationError`; an id with no matching Status fails with
`NotFoundError`; otherwise the Status row is returned. -/
def resolveStatus (db : DB) (statusId statusName : JsVal) : Except Err Status :=
  if statusId == .undef || statusId == .null then
    .error ⟨.notFound, "Status not found"⟩
  else
    match parseIntJs statusId with
    | none => .error ⟨.validation, "statusId must be a valid integer"⟩
    | some parsed =>
      match db.statuses.find? (fun s => s.id == parsed) with
      | none => .error ⟨.notFound, "Status not found"⟩
      | some s => .ok s

/-- Controller createTask: validate the title, parse `boardId` (`NaN` rejected),
require the board to exist, resolve the status, then insert the task with
trimmed title, truthiness-guarded trimmed description, the parsed
`boardId` and the resolved status id. -/
def createTask (db : DB) (body : TaskBody) : Except Err (Task × DB) :=
  if body.title.isNonEmptyString then
    match parseIntJs body.boardId with
    | none => .error ⟨.validation, "Valid boardId is required"⟩
    | some parsedBoardId =>
      match db.boards.find? (fun b => b.id == parsedBoardId) with
      | none => .error ⟨.notFound, "Board not found"⟩
      | some _ =>
        match resolveStatus db body.statusId body.statusName with
        | .error e => .error e
        | .ok status =>
          let t : Task :=
            { id := db.nextTaskId,
              boardId := parsedBoardId,
              title := body.title.jsToString |> jsTrim,
              description :=
                if body.description.truthy then some (jsTrim body.description.jsToString) else none,
              statusId := some status.id,
              createdAt := db.clock }
          .ok (t, { db with tasks := db.tasks ++ [t],
                            nextTaskId := db.nextTaskId + 1,
                            clock := db.clock + 1 })
  else .error ⟨.validation, "Task title is required"⟩

/-- Title field of a task update: absent means untouched; present means it
must be a non-empty string, stored trimmed. -/
def checkTitleUpd (title : JsVal) : Except Err (Option String) :=
  match title with
  | .undef => .ok none
  | t =>
      if t.isNonEmptyString then .ok (some (t.jsToString |> jsTrim))
      else .error ⟨.validation, "Task title, if provided, must be a non-empty string"⟩

/-- Description field of a task update: absent means untouched; an
explicit null clears it; anything else is coerced to string and trimmed. -/
def checkDescUpd (description : JsVal) : Option (Option String) :=
  match description with
  | .undef => none
  | .null => some none
  | v => some (some (v.jsToString |> jsTrim))

/-- Board field of a task update: absent means untouched; otherwise it
must parse and reference an existing board. -/
def checkBoardUpd (db : DB) (boardId : JsVal) : Except Err (Option Int) :=
  match boardId with
  | .undef => .ok none
  | v =>
    match parseIntJs v with
    | none => .error ⟨.validation, "boardId must be a valid integer"⟩
    | some parsed =>
      match db.boards.find? (fun b => b.id == parsed) with
      | none => .error ⟨.notFound, "Board not found"⟩
      | some _ => .ok (some parsed)

/-- Status fields of a task update: both absent means untouched; an
explicit null on either disconnects; otherwise resolution as in create. -/
def checkStatusUpd (db : DB) (statusId statusName : JsVal) :
    Except Err (Option (Option Int)) :=
  if statusId = .undef ∧ statusName = .undef then .ok none
  else if statusId = .null ∨ statusName = .null then .ok (some none)
  else
    match resolveStatus db statusId statusName with
    | .error e => .error e
    | .ok s => .ok (some (some s.id))

/-- Controller updateTask: parse the id, require the task to exist, then process
the title, description, board and status fields in controller
order (each absent field is untouched, each check may fail first), and
write the accumulated changes back. -/
def updateTask (db : DB) (id : JsVal) (body : TaskBody) : Except Err (Task × DB) :=
  match parseIntJs id with
  | none => .error ⟨.validation, "Invalid task id"⟩
  | some taskId =>
    match db.tasks.find? (fun t => t.id == taskId) with
    | none => .error ⟨.notFound, "Task not found"⟩
    | some existing =>
      match checkTitleUpd body.title with
      | .error e => .error e
      | .ok newTitle =>
        let newDesc := checkDescUpd body.description
        match checkBoardUpd db body.boardId with
        | .error e => .error e
        | .ok newBoard =>
          match checkStatusUpd db body.statusId body.statusName with
          | .error e => .error e
          | .ok newStatus =>
            let updated : Task :=
              { existing with
                  title := newTitle.getD existing.title,
                  description := newDesc.getD existing.description,
                  boardId := newBoard.getD existing.boardId,
                  statusId := newStatus.getD existing.statusId }
            let tasks := db.tasks.map (fun t => if t.id == taskId then updated else t)
            .ok (updated, { db with tasks := tasks })

/-- Controller deleteTask: parse the id, require the task to exist, delete it. -/
def deleteTask (db : DB) (id : JsVal) : Except Err (String × DB) :=
  match parseIntJs id with
  | none => .error ⟨.validation, "Invalid task id"⟩
  | some taskId =>
    match db.tasks.find? (fun t => t.id == taskId) with
    | none => .error ⟨.notFound, "Task not found"⟩
    | some _ =>
      .ok ("Task deleted successfully",
        { db with tasks := db.tasks.filter (fun t => ¬ t.id == taskId) })

/-- Joi conversion of a string to a number (`convert: true`): after
trimming, the whole string must be an optional sign followed by digits;
unlike `parseInt`, trailing non-digits make the conversion fail. -/
def numFromString (s : String) : Option Int :=
  let cs := ((s.data.dropWhile isWsChar).reverse.dropWhile isWsChar).reverse
  match cs with
  | '-' :: rest =>
      if rest.isEmpty || !rest.all Char.isDigit then none
      else some (-(digitsVal rest : Int))
  | '+' :: rest =>
      if rest.isEmpty || !rest.all Char.isDigit then none
      else some ((digitsVal rest : Int))
  | _ =>
      if cs.isEmpty || !cs.all Char.isDigit then none
      else some ((digitsVal cs : Int))

/-- Joi `number().integer().positive()` with conversion: a number must
be a positive integer; a string is converted when it denotes an integer
in full, and must be positive; null, undefined and anything else fail. -/
def joiNumPosInt : JsVal → Option Int
  | .num n => if 0 < n then some n else none
  | .str s =>
      match numFromString s with
      | some n => if 0 < n then some n else none
      | none => none
  | _ => none

/-- Joi `string().trim().min(1)`: a string whose trimmed form is
non-empty, converted to that trimmed form; anything else fails. -/
def joiStringTrimMin1 : JsVal → Option String
  | .str s => if jsTrim s ≠ "" then some (jsTrim s) else none
  | _ => none

/-- Joi string().allow(null, empty).optional() for the description
field: absent, null and any string (the empty string included) pass;
a number fails the string type. -/
def joiDescriptionOk : JsVal → Bool
  | .undef => true
  | .null => true
  | .str _ => true
  | _ => false

/-- Joi `number().integer().positive().optional()` for the statusId
field: absent passes untouched, otherwise the positive-integer rule. -/
def joiStatusIdField : JsVal → Option JsVal
  | .undef => some .undef
  | v => (joiNumPosInt v).map JsVal.num

/-- Joi `string().trim().optional()` for the statusName field: absent
passes; a string must trim to non-empty and is converted. -/
def joiStatusNameField : JsVal → Option JsVal
  | .undef => some .undef
  | .str s => if jsTrim s ≠ "" then some (.str (jsTrim s)) else none
  | _ => none

/-- The validate middleware instantiated at `taskCreateSchema`
(routes/router.js wires it before `createTask` on POST /tasks): fields
are checked in schema key order — title, description, boardId, statusId,
statusName — the first failure answers 400 with the Joi message (the
message texts here are abstracted stand-ins for the ones the library
produces), and on success the request body is replaced by the converted
values. -/
def validateTaskCreate (body : TaskBody) : Except Err TaskBody :=
  match joiStringTrimMin1 body.title with
  | none => .error ⟨.validation, "title must be a non-empty string"⟩
  | some tt =>
    if joiDescriptionOk body.description then
      match joiNumPosInt body.boardId with
      | none => .error ⟨.validation, "boardId must be a positive integer"⟩
      | some p =>
        match joiStatusIdField body.statusId with
        | none => .error ⟨.validation, "statusId must be a positive integer"⟩
        | some si =>
          match joiStatusNameField body.statusName with
          | none => .error ⟨.validation, "statusName must be a non-empty string"⟩
          | some sn =>
            .ok { title := .str tt, description := body.description,
                  boardId := .num p, statusId := si, statusName := sn }
    else .error ⟨.validation, "description must be a string"⟩

/-- The POST /tasks route as wired in routes/router.js: the Joi
validation middleware runs first and only a 200-validated, converted
body reaches the `createTask` controller. -/
def postTasks (db : DB) (body : TaskBody) : Except Err (Task × DB) :=
  match validateTaskCreate body with
  | .error e => .error e
  | .ok value => createTask db value

/-- Referential integrity: for every task the `boardId` names an existing
board, and every non-null `statusId` names an existing status. -/
def RefInt (db : DB) : Prop :=
  (∀ t ∈ db.tasks, ∃ b ∈ db.boards, b.id = t.boardId) ∧
  (∀ t ∈ db.tasks, ∀ sid, t.statusId = some sid → ∃ s ∈ db.statuses, s.id = sid)

/-- One store operation succeeding: the transition relation generated by
the eight mutating controller operations. -/
inductive Step : DB → DB → Prop where
  | boardCreate {db db' : DB} {name : JsVal} {b : Board}
      (h : createBoard db name = .ok (b, db')) : Step db db'
  | boardUpdate {db db' : DB} {id name : JsVal} {b : Board}
      (h : updateBoard db id name = .ok (b, db')) : Step db db'
  | boardDelete {db db' : DB} {id : JsVal} {m : String}
      (h : deleteBoard db id = .ok (m, db')) : Step db db'
  | statusCreate {db db' : DB} {name : JsVal} {s : Status}
      (h : createStatus db name = .ok (s, db')) : Step db db'
  | statusUpdate {db db' : DB} {id name : JsVal} {s : Status}
      (h : updateStatus db id name = .ok (s, db')) : Step db db'
  | statusDelete {db db' : DB} {id : JsVal} {m : String}
      (h : deleteStatus db id = .ok (m, db')) : Step db db'
  | taskCreate {db db' : DB} {body : TaskBody} {t : Task}
      (h : createTask db body = .ok (t, db')) : Step db db'
  | taskUpdate {db db' : DB} {id : JsVal} {body : TaskBody} {t : Task}
      (h : updateTask db id body = .ok (t, db')) : Step db db'
  | taskDelete {db db' : DB} {id : JsVal} {m : String}
      (h : deleteTask db id = .ok (m, db')) : Step db db'

/-- A store state reachable from the empty store by controller operations. -/
def Reachable (db : DB) : Prop :=
  Relation.ReflTransGen Step DB.init db

theorem refInt_init : RefInt DB.init := by
  constructor <;> intro t ht <;> simp [DB.init] at ht

theorem refInt_createBoard {db db' : DB} {name : JsVal} {b : Board}
    (h : createBoard db name = .ok (b, db')) (hinv : RefInt db) : RefInt db' := by
  unfold createBoard at h
  split at h
  · dsimp only at h
    split at h
    · exact absurd h (by simp)
    · injection h with h
      injection h with h1 h2
      subst h2
      obtain ⟨hb, hs⟩ := hinv
      refine ⟨fun t ht => ?_, fun t ht sid hsid => hs t ht sid hsid⟩
      obtain ⟨bb, hbb, hid⟩ := hb t ht
      exact ⟨bb, List.mem_append_left _ hbb, hid⟩
  · exact absurd h (by simp)

theorem refInt_createStatus {db db' : DB} {name : JsVal} {s : Status}
    (h : createStatus db name = .ok (s, db')) (hinv : RefInt db) : RefInt db' := by
  unfold createStatus at h
  split at h
  · dsimp only at h
    split at h
    · exact absurd h (by simp)
    · injection h with h
      injection h with h1 h2
      subst h2
      obtain ⟨hb, hs⟩ := hinv
      refine ⟨fun t ht => hb t ht, fun t ht sid hsid => ?_⟩
      obtain ⟨ss, hss, hid⟩ := hs t ht sid hsid
      exact ⟨ss, List.mem_append_left _ hss, hid⟩
  · exact absurd h (by simp)

theorem refInt_updateBoard {db db' : DB} {id name : JsVal} {b : Board}
    (h : updateBoard db id name = .ok (b, db')) (hinv : RefInt db) : RefInt db' := by
  unfold updateBoard at h
  split at h
  · exact absurd h (by simp)
  · split at h
    · dsimp only at h
      split at h
      · exact absurd h (by simp)
      · split at h
        · exact absurd h (by simp)
        · injection h with h
          injection h with h1 h2
          subst h2
          obtain ⟨hb, hs⟩ := hinv
          refine ⟨fun t ht => ?_, fun t ht sid hsid => hs t ht sid hsid⟩
          obtain ⟨bb, hbb, hid⟩ := hb t ht
          refine ⟨if bb.id == _ then { bb with name := _ } else bb,
            List.mem_map_of_mem _ hbb, ?_⟩
          split <;> simpa using hid
    · exact absurd h (by simp)

theorem refInt_deleteBoard {db db' : DB} {id : JsVal} {m : String}
    (h : deleteBoard db id = .ok (m, db')) (hinv : RefInt db) : RefInt db' := by
  unfold deleteBoard at h
  split at h
  · exact absurd h (by simp)
  · split at h
    · exact absurd h (by simp)
    · injection h with h
      injection h with h1 h2
      subst h2
      obtain ⟨hb, hs⟩ := hinv
      constructor
      · intro t ht
        simp only [List.mem_filter, decide_eq_true_eq] at ht
        obtain ⟨ht, hne⟩ := ht
        obtain ⟨bb, hbb, hid⟩ := hb t ht
        refine ⟨bb, ?_, hid⟩
        simp only [List.mem_filter, decide_eq_true_eq]
        refine ⟨hbb, ?_⟩
        simpa [hid] using hne
      · intro t ht sid hsid
        simp only [List.mem_filter] at ht
        exact hs t ht.1 sid hsid

theorem refInt_updateStatus {db db' : DB} {id name : JsVal} {s : Status}
    (h : updateStatus db id name = .ok (s, db')) (hinv : RefInt db) : RefInt db' := by
  unfold updateStatus at h
  have key : ∀ (statusId : Int) (trimmed : String),
      db' = { db with statuses := db.statuses.map (fun s => if s.id == statusId then { s with name := trimmed } else s) } → RefInt db' := by
    intro statusId trimmed hdb
    subst hdb
    obtain ⟨hb, hs⟩ := hinv
    refine ⟨fun t ht => hb t ht, fun t ht sid hsid => ?_⟩
    obtain ⟨ss, hss, hid⟩ := hs t ht sid hsid
    refine ⟨if ss.id == statusId then { ss with name := trimmed } else ss,
      List.mem_map_of_mem _ hss, ?_⟩
    split <;> simpa using hid
  split at h
  · exact absurd h (by simp)
  · split at h
    · dsimp only at h
      split at h
      · exact absurd h (by simp)
      · split at h
        · split at h
          · exact absurd h (by simp)
          · injection h with h
            injection h with h1 h2
            exact key _ _ h2.symm
        · injection h with h
          injection h with h1 h2
          exact key _ _ h2.symm
    · exact absurd h (by simp)

theorem refInt_deleteStatus {db db' : DB} {id : JsVal} {m : String}
    (h : deleteStatus db id = .ok (m, db')) (hinv : RefInt db) : RefInt db' := by
  unfold deleteStatus at h
  split at h
  · exact absurd h (by simp)
  · split at h
    · exact absurd h (by simp)
    · injection h with h
      injection h with h1 h2
      subst h2
      obtain ⟨hb, hs⟩ := hinv
      constructor
      · intro t ht
        simp only [List.mem_map] at ht
        obtain ⟨t0, ht0, hmap⟩ := ht
        obtain ⟨bb, hbb, hid⟩ := hb t0 ht0
        refine ⟨bb, hbb, ?_⟩
        rw [← hmap]
        split <;> simpa using hid
      · intro t ht sid hsid
        simp only [List.mem_map] at ht
        obtain ⟨t0, ht0, hmap⟩ := ht
        subst hmap
        split at hsid
        · simp at hsid
        · rename_i hne
          obtain ⟨ss, hss, hid⟩ := hs t0 ht0 sid hsid
          refine ⟨ss, ?_, hid⟩
          simp only [List.mem_filter, decide_eq_true_eq]
          refine ⟨hss, ?_⟩
          intro hcontra
          apply hne
          rw [hsid]
          simp only [beq_iff_eq, Option.some.injEq]
          simp only [beq_iff_eq] at hcontra
          omega

theorem resolveStatus_ok_mem {db : DB} {sid sn : JsVal} {s : Status}
    (h : resolveStatus db sid sn = .ok s) : s ∈ db.statuses := by
  unfold resolveStatus at h
  split at h
  · exact absurd h (by simp)
  · split at h
    · exact absurd h (by simp)
    · split at h
      · exact absurd h (by simp)
      · injection h with h
        subst h
        exact List.mem_of_find?_eq_some (by assumption)

theorem refInt_createTask {db db' : DB} {body : TaskBody} {t : Task}
    (h : createTask db body = .ok (t, db')) (hinv : RefInt db) : RefInt db' := by
  unfold createTask at h
  split at h
  · split at h
    · exact absurd h (by simp)
    · rename_i parsedBoardId hparse
      split at h
      · exact absurd h (by simp)
      · rename_i bfound hbfound
        split at h
        · exact absurd h (by simp)
        · rename_i status hres
          injection h with h
          injection h with h1 h2
          subst h2
          obtain ⟨hb, hs⟩ := hinv
          constructor
          · intro t2 ht2
            rcases List.mem_append.1 ht2 with ht2 | ht2
            · exact hb t2 ht2
            · simp only [List.mem_singleton] at ht2
              subst ht2
              refine ⟨bfound, List.mem_of_find?_eq_some hbfound, ?_⟩
              have := List.find?_some hbfound
              simpa using this
          · intro t2 ht2 sid hsid
            rcases List.mem_append.1 ht2 with ht2 | ht2
            · exact hs t2 ht2 sid hsid
            · simp only [List.mem_singleton] at ht2
              subst ht2
              simp only [Option.some.injEq] at hsid
              exact ⟨status, show status ∈ db.statuses from resolveStatus_ok_mem hres, hsid⟩
  · exact absurd h (by simp)

theorem checkBoardUpd_ok_some {db : DB} {v : JsVal} {p : Int}
    (h : checkBoardUpd db v = .ok (some p)) : ∃ b ∈ db.boards, b.id = p := by
  unfold checkBoardUpd at h
  split at h
  · exact absurd h (by simp)
  · split at h
    · exact absurd h (by simp)
    · split at h
      · exact absurd h (by simp)
      · rename_i parsed hparse bfound hbfound
        injection h with h
        injection h with h
        subst h
        exact ⟨bfound, List.mem_of_find?_eq_some hbfound, by simpa using List.find?_some hbfound⟩

theorem checkStatusUpd_ok_some {db : DB} {si sn : JsVal} {sid : Int}
    (h : checkStatusUpd db si sn = .ok (some (some sid))) : ∃ s ∈ db.statuses, s.id = sid := by
  unfold checkStatusUpd at h
  split at h
  · exact absurd h (by simp)
  · split at h
    · exact absurd h (by simp)
    · split at h
      · exact absurd h (by simp)
      · rename_i status hres
        injection h with h
        simp only [Option.some.injEq] at h
        exact ⟨status, resolveStatus_ok_mem hres, by rw [h]⟩

theorem refInt_updateTask {db db' : DB} {id : JsVal} {body : TaskBody} {t : Task}
    (h : updateTask db id body = .ok (t, db')) (hinv : RefInt db) : RefInt db' := by
  unfold updateTask at h
  split at h
  · exact absurd h (by simp)
  · rename_i taskId hparse
    split at h
    · exact absurd h (by simp)
    · rename_i existing hfound
      split at h
      · exact absurd h (by simp)
      · rename_i newTitle htitle
        split at h
        · exact absurd h (by simp)
        · rename_i newBoard hboard
          split at h
          · exact absurd h (by simp)
          · rename_i newStatus hstatus
            injection h with h
            injection h with h1 h2
            subst h2
            obtain ⟨hb, hs⟩ := hinv
            have hex : existing ∈ db.tasks := List.mem_of_find?_eq_some hfound
            constructor
            · intro t2 ht2
              simp only [List.mem_map] at ht2
              obtain ⟨t0, ht0, hmap⟩ := ht2
              subst hmap
              split
              · dsimp only
                match hnb : newBoard, hboard with
                | some p, hboard =>
                  obtain ⟨bb, hbb, hid⟩ := checkBoardUpd_ok_some hboard
                  exact ⟨bb, hbb, by simpa using hid⟩
                | none, hboard =>
                  obtain ⟨bb, hbb, hid⟩ := hb existing hex
                  exact ⟨bb, hbb, by simpa using hid⟩
              · exact hb t0 ht0
            · intro t2 ht2 sid hsid
              simp only [List.mem_map] at ht2
              obtain ⟨t0, ht0, hmap⟩ := ht2
              subst hmap
              split at hsid
              · dsimp only at hsid
                match hns : newStatus, hstatus, hsid with
                | some (some sid2), hstatus, hsid =>
                  simp only [Option.getD_some, Option.some.injEq] at hsid
                  obtain ⟨ss, hss, hid⟩ := checkStatusUpd_ok_some hstatus
                  exact ⟨ss, show ss ∈ db.statuses from hss, hsid ▸ hid⟩
                | some none, hstatus, hsid =>
                  simp at hsid
                | none, hstatus, hsid =>
                  simp only [Option.getD_none] at hsid
                  obtain ⟨ss, hss, hid⟩ := hs existing hex sid hsid
                  exact ⟨ss, show ss ∈ db.statuses from hss, hid⟩
              · exact hs t0 ht0 sid hsid

theorem refInt_deleteTask {db db' : DB} {id : JsVal} {m : String}
    (h : deleteTask db id = .ok (m, db')) (hinv : RefInt db) : RefInt db' := by
  unfold deleteTask at h
  split at h
  · exact absurd h (by simp)
  · split at h
    · exact absurd h (by simp)
    · injection h with h
      injection h with h1 h2
      subst h2
      obtain ⟨hb, hs⟩ := hinv
      constructor
      · intro t2 ht2
        simp only [List.mem_filter] at ht2
        exact hb t2 ht2.1
      · intro t2 ht2 sid hsid
        simp only [List.mem_filter] at ht2
        exact hs t2 ht2.1 sid hsid

theorem refInt_step {db db' : DB} (h : Step db db') (hinv : RefInt db) : RefInt db' := by
  cases h with
  | boardCreate h => exact refInt_createBoard h hinv
  | boardUpdate h => exact refInt_updateBoard h hinv
  | boardDelete h => exact refInt_deleteBoard h hinv
  | statusCreate h => exact refInt_createStatus h hinv
  | statusUpdate h => exact refInt_updateStatus h hinv
  | statusDelete h => exact refInt_deleteStatus h hinv
  | taskCreate h => exact refInt_createTask h hinv
  | taskUpdate h => exact refInt_updateTask h hinv
  | taskDelete h => exact refInt_deleteTask h hinv

/-- Demo board row created by the witness chain. -/
def demoBoard : Board := { id := 1, name := "Sprint 1", createdAt := 0 }

/-- Demo status row created by the witness chain. -/
def demoStatus : Status := { id := 1, name := "TODO", createdAt := 1 }

/-- Demo task row created by the witness chain. -/
def demoTask : Task :=
  { id := 1, boardId := 1, title := "Write spec", description := none,
    statusId := some 1, createdAt := 2 }

/-- Store after creating the demo board. -/
def demoDB1 : DB :=
  { boards := [demoBoard], statuses := [], tasks := [],
    nextBoardId := 2, nextStatusId := 1, nextTaskId := 1, clock := 1 }

/-- Store after also creating the demo status. -/
def demoDB2 : DB :=
  { boards := [demoBoard], statuses := [demoStatus], tasks := [],
    nextBoardId := 2, nextStatusId := 2, nextTaskId := 1, clock := 2 }

/-- Store after also creating the demo task. -/
def demoDB3 : DB :=
  { boards := [demoBoard], statuses := [demoStatus], tasks := [demoTask],
    nextBoardId := 2, nextStatusId := 2, nextTaskId := 2, clock := 3 }

/-- Store after finally deleting the demo status (the task is unlinked). -/
def demoDB4 : DB :=
  { boards := [demoBoard], statuses := [],
    tasks := [{ demoTask with statusId := none }],
    nextBoardId := 2, nextStatusId := 2, nextTaskId := 2, clock := 3 }

theorem demoDB4_reachable : Reachable demoDB4 := by
  have h1 : Step DB.init demoDB1 :=
    .boardCreate (show createBoard DB.init (.str "Sprint 1") = .ok (demoBoard, demoDB1) from rfl)
  have h2 : Step demoDB1 demoDB2 :=
    .statusCreate (show createStatus demoDB1 (.str "TODO") = .ok (demoStatus, demoDB2) from rfl)
  have h3 : Step demoDB2 demoDB3 :=
    .taskCreate (show createTask demoDB2
      { title := .str "Write spec", description := .undef, boardId := .num 1,
        statusId := .num 1, statusName := .undef } = .ok (demoTask, demoDB3) from rfl)
  have h4 : Step demoDB3 demoDB4 :=
    .statusDelete (show deleteStatus demoDB3 (.num 1) =
      .ok ("Status deleted and tasks unlinked", demoDB4) from rfl)
  exact .tail (.tail (.tail (.tail .refl h1) h2) h3) h4

/-- C1: in every state reachable from the empty store by the store
operations (create/update/delete on Board, Task, Status), the `boardId`
of every Task references an existing Board, and the `statusId` of every
Task, when non-null, references an existing Status. -/
theorem referential_integrity_of_reachable {db : DB} (h : Reachable db) :
    (∀ t ∈ db.tasks, ∃ b ∈ db.boards, b.id = t.boardId) ∧
    (∀ t ∈ db.tasks, ∀ sid, t.statusId = some sid → ∃ s ∈ db.statuses, s.id = sid) := by
  unfold Reachable at h
  have hri : RefInt db := by
    induction h with
    | refl => exact refInt_init
    | tail _ hstep ih => exact refInt_step hstep ih
  exact hri

/-- Witness for C1: the invariant holds in the concrete state reached by
creating a board, a status and a task and then deleting the status. -/
theorem referential_integrity_of_reachable_witness :
    (∀ t ∈ demoDB4.tasks, ∃ b ∈ demoDB4.boards, b.id = t.boardId) ∧
    (∀ t ∈ demoDB4.tasks, ∀ sid, t.statusId = some sid →
      ∃ s ∈ demoDB4.statuses, s.id = sid) :=
  referential_integrity_of_reachable demoDB4_reachable

/-- C2: deleting an existing Status succeeds with a confirmation message
(not the deleted entity); every Task survives with its title, description
and board unchanged, Tasks that referenced the Status now reference none,
no surviving Task references the Status, the Status row is gone and all
other Statuses and the Boards are untouched. -/
theorem deleteStatus_unlinks_then_removes {db : DB} {sid : Int} {s : Status}
    (hs : s ∈ db.statuses) (hid : s.id = sid) :
    ∃ db',
      deleteStatus db (.num sid) = .ok ("Status deleted and tasks unlinked", db') ∧
      db'.tasks.length = db.tasks.length ∧
      (∀ t ∈ db.tasks, ∃ t' ∈ db'.tasks,
        t'.id = t.id ∧ t'.title = t.title ∧ t'.description = t.description ∧
        t'.boardId = t.boardId ∧
        t'.statusId = (if t.statusId = some sid then none else t.statusId)) ∧
      (∀ t' ∈ db'.tasks, t'.statusId ≠ some sid) ∧
      (∀ s' ∈ db'.statuses, s'.id ≠ sid) ∧
      (∀ s' ∈ db.statuses, s'.id ≠ sid → s' ∈ db'.statuses) ∧
      db'.boards = db.boards := by
  have hfind : ∃ x, db.statuses.find? (fun s => s.id == sid) = some x := by
    rw [← Option.isSome_iff_exists, List.find?_isSome]
    exact ⟨s, hs, by simp [hid]⟩
  obtain ⟨x, hx⟩ := hfind
  refine ⟨{ db with
      tasks := db.tasks.map (fun t => if t.statusId == some sid then { t with statusId := none } else t),
      statuses := db.statuses.filter (fun s => ¬ s.id == sid) }, ?_, ?_, ?_, ?_, ?_, ?_, ?_⟩
  · unfold deleteStatus
    simp only [parseIntJs, hx]
  · exact List.length_map _ _
  · intro t ht
    refine ⟨if t.statusId == some sid then { t with statusId := none } else t,
      List.mem_map_of_mem _ ht, ?_⟩
    by_cases hcase : t.statusId = some sid
    · simp [hcase]
    · simp [hcase]
  · intro t' ht'
    simp only [List.mem_map] at ht'
    obtain ⟨t0, ht0, hmap⟩ := ht'
    subst hmap
    by_cases hcase : t0.statusId = some sid
    · simp [hcase]
    · simp [hcase]
  · intro s' hs'
    simp only [List.mem_filter, decide_eq_true_eq, beq_iff_eq] at hs'
    exact hs'.2
  · intro s' hs' hne
    simp only [List.mem_filter, decide_eq_true_eq, beq_iff_eq]
    exact ⟨hs', hne⟩
  · rfl

/-- Witness for C2: deleting the demo status from the demo store. -/
theorem deleteStatus_unlinks_then_removes_witness :
    ∃ db',
      deleteStatus demoDB3 (.num 1) = .ok ("Status deleted and tasks unlinked", db') ∧
      db'.tasks.length = demoDB3.tasks.length ∧
      (∀ t ∈ demoDB3.tasks, ∃ t' ∈ db'.tasks,
        t'.id = t.id ∧ t'.title = t.title ∧ t'.description = t.description ∧
        t'.boardId = t.boardId ∧
        t'.statusId = (if t.statusId = some 1 then none else t.statusId)) ∧
      (∀ t' ∈ db'.tasks, t'.statusId ≠ some 1) ∧
      (∀ s' ∈ db'.statuses, s'.id ≠ 1) ∧
      (∀ s' ∈ demoDB3.statuses, s'.id ≠ 1 → s' ∈ db'.statuses) ∧
      db'.boards = demoDB3.boards :=
  deleteStatus_unlinks_then_removes (s := demoStatus) (by simp [demoDB3]) rfl

/-- C3: deleting an existing Board succeeds with a confirmation message;
afterwards no Task carries that `boardId`, Tasks of other Boards survive
unchanged, no new Tasks appear, the Board is gone, other Boards survive
and the Statuses are untouched. -/
theorem deleteBoard_cascades_tasks {db : DB} {bid : Int} {b : Board}
    (hb : b ∈ db.boards) (hid : b.id = bid) :
    ∃ db',
      deleteBoard db (.num bid) = .ok ("Board and its tasks deleted successfully", db') ∧
      (∀ t' ∈ db'.tasks, t'.boardId ≠ bid) ∧
      (∀ t ∈ db.tasks, t.boardId ≠ bid → t ∈ db'.tasks) ∧
      (∀ t' ∈ db'.tasks, t' ∈ db.tasks) ∧
      (∀ b' ∈ db'.boards, b'.id ≠ bid) ∧
      (∀ b' ∈ db.boards, b'.id ≠ bid → b' ∈ db'.boards) ∧
      db'.statuses = db.statuses := by
  have hfind : ∃ x, db.boards.find? (fun b => b.id == bid) = some x := by
    rw [← Option.isSome_iff_exists, List.find?_isSome]
    exact ⟨b, hb, by simp [hid]⟩
  obtain ⟨x, hx⟩ := hfind
  refine ⟨{ db with
      tasks := db.tasks.filter (fun t => ¬ t.boardId == bid),
      boards := db.boards.filter (fun b => ¬ b.id == bid) }, ?_, ?_, ?_, ?_, ?_, ?_, ?_⟩
  · unfold deleteBoard
    simp only [parseIntJs, hx]
  · intro t' ht'
    simp only [List.mem_filter, decide_eq_true_eq, beq_iff_eq] at ht'
    exact ht'.2
  · intro t ht hne
    simp only [List.mem_filter, decide_eq_true_eq, beq_iff_eq]
    exact ⟨ht, hne⟩
  · intro t' ht'
    simp only [List.mem_filter] at ht'
    exact ht'.1
  · intro b' hb'
    simp only [List.mem_filter, decide_eq_true_eq, beq_iff_eq] at hb'
    exact hb'.2
  · intro b' hb' hne
    simp only [List.mem_filter, decide_eq_true_eq, beq_iff_eq]
    exact ⟨hb', hne⟩
  · rfl

/-- Witness for C3: deleting the demo board from the demo store. -/
theorem deleteBoard_cascades_tasks_witness :
    ∃ db',
      deleteBoard demoDB3 (.num 1) = .ok ("Board and its tasks deleted successfully", db') ∧
      (∀ t' ∈ db'.tasks, t'.boardId ≠ 1) ∧
      (∀ t ∈ demoDB3.tasks, t.boardId ≠ 1 → t ∈ db'.tasks) ∧
      (∀ t' ∈ db'.tasks, t' ∈ demoDB3.tasks) ∧
      (∀ b' ∈ db'.boards, b'.id ≠ 1) ∧
      (∀ b' ∈ demoDB3.boards, b'.id ≠ 1 → b' ∈ db'.boards) ∧
      db'.statuses = demoDB3.statuses :=
  deleteBoard_cascades_tasks (b := demoBoard) (by simp [demoDB3]) rfl

/-- C4: status resolution, shared by task create and update.  An absent
or null `statusId` fails with `NotFoundError` even when a `statusName` is
supplied (no name lookup, no default-status fallback); a present but
unparseable `statusId` fails with `ValidationError`; a parsed id naming
no Status fails with `NotFoundError`; otherwise exactly the Status with
that id is returned. -/
theorem resolveStatus_spec (db : DB) (v sn : JsVal) :
    (resolveStatus db .undef sn = .error ⟨.notFound, "Status not found"⟩) ∧
    (resolveStatus db .null sn = .error ⟨.notFound, "Status not found"⟩) ∧
    (v ≠ .undef → v ≠ .null → parseIntJs v = none →
      resolveStatus db v sn = .error ⟨.validation, "statusId must be a valid integer"⟩) ∧
    (∀ p, v ≠ .undef → v ≠ .null → parseIntJs v = some p →
      (∀ s ∈ db.statuses, s.id ≠ p) →
      resolveStatus db v sn = .error ⟨.notFound, "Status not found"⟩) ∧
    (∀ p s, v ≠ .undef → v ≠ .null → parseIntJs v = some p →
      s ∈ db.statuses → s.id = p → (∀ s2 ∈ db.statuses, s2.id = p → s2 = s) →
      resolveStatus db v sn = .ok s) := by
  refine ⟨by simp [resolveStatus], by simp [resolveStatus], ?_, ?_, ?_⟩
  · intro h1 h2 hparse
    simp [resolveStatus, h1, h2, hparse]
  · intro p h1 h2 hparse hnone
    have hfind : db.statuses.find? (fun s => s.id == p) = none :=
      List.find?_eq_none.2 (fun a ha => by simpa using hnone a ha)
    simp [resolveStatus, h1, h2, hparse, hfind]
  · intro p s h1 h2 hparse hmem hid huniq
    have hfind : ∃ x, db.statuses.find? (fun s => s.id == p) = some x := by
      rw [← Option.isSome_iff_exists, List.find?_isSome]
      exact ⟨s, hmem, by simp [hid]⟩
    obtain ⟨x, hx⟩ := hfind
    have hxmem : x ∈ db.statuses := List.mem_of_find?_eq_some hx
    have hxid : x.id = p := by simpa using List.find?_some hx
    have hxs : x = s := huniq x hxmem hxid
    subst hxs
    simp [resolveStatus, h1, h2, hparse, hx]

/-- Witness for C4: the four behaviours of `resolveStatus` on the demo
store with one Status (id 1). -/
theorem resolveStatus_spec_witness :
    resolveStatus demoDB2 .undef (.str "TODO") = .error ⟨.notFound, "Status not found"⟩ ∧
    resolveStatus demoDB2 (.str "abc") .undef =
      .error ⟨.validation, "statusId must be a valid integer"⟩ ∧
    resolveStatus demoDB2 (.num 5) .undef = .error ⟨.notFound, "Status not found"⟩ ∧
    resolveStatus demoDB2 (.num 1) .undef = .ok demoStatus :=
  ⟨(resolveStatus_spec demoDB2 (.str "x") (.str "TODO")).1,
   (resolveStatus_spec demoDB2 (.str "abc") .undef).2.2.1 (by decide) (by decide) rfl,
   (resolveStatus_spec demoDB2 (.num 5) .undef).2.2.2.1 5 (by decide) (by decide) rfl
     (by decide),
   (resolveStatus_spec demoDB2 (.num 1) .undef).2.2.2.2 1 demoStatus (by decide) (by decide)
     rfl (by decide) (by decide) (by decide)⟩

/-- C5: Status create (and likewise Board create) rejects an empty or
whitespace-only name with `ValidationError`, rejects a name whose trimmed
form already exists with `ConflictError`, and otherwise inserts and
returns the new record; after a successful create exactly one record with
that trimmed name exists and a second create with the same trimmed name
fails with `ConflictError`. -/
theorem create_unique_names (db : DB) (s s2 : String) :
    (jsTrim s = "" →
      createStatus db (.str s) = .error ⟨.validation, "Status name is required"⟩ ∧
      createBoard db (.str s) = .error ⟨.validation, "Board name is required"⟩) ∧
    (jsTrim s ≠ "" → (∃ x ∈ db.statuses, x.name = jsTrim s) →
      createStatus db (.str s) = .error ⟨.conflict, "Status name already exists"⟩) ∧
    (jsTrim s ≠ "" → (∀ x ∈ db.statuses, x.name ≠ jsTrim s) →
      ∃ st db', createStatus db (.str s) = .ok (st, db') ∧ st.name = jsTrim s ∧
        db'.statuses = db.statuses ++ [st] ∧
        (db'.statuses.filter (fun x => x.name == jsTrim s)).length = 1 ∧
        (jsTrim s2 = jsTrim s →
          createStatus db' (.str s2) = .error ⟨.conflict, "Status name already exists"⟩)) ∧
    (jsTrim s ≠ "" → (∃ x ∈ db.boards, x.name = jsTrim s) →
      createBoard db (.str s) = .error ⟨.conflict, "Board name already exists"⟩) ∧
    (jsTrim s ≠ "" → (∀ x ∈ db.boards, x.name ≠ jsTrim s) →
      ∃ b db', createBoard db (.str s) = .ok (b, db') ∧ b.name = jsTrim s ∧
        db'.boards = db.boards ++ [b] ∧
        (db'.boards.filter (fun x => x.name == jsTrim s)).length = 1 ∧
        (jsTrim s2 = jsTrim s →
          createBoard db' (.str s2) = .error ⟨.conflict, "Board name already exists"⟩)) := by
  refine ⟨?_, ?_, ?_, ?_, ?_⟩
  · intro h
    constructor <;> simp [createStatus, createBoard, JsVal.isNonEmptyString, h]
  · intro hne ⟨x, hx, hxname⟩
    have hfind : ∃ y, db.statuses.find? (fun z => z.name == jsTrim s) = some y := by
      rw [← Option.isSome_iff_exists, List.find?_isSome]
      exact ⟨x, hx, by simp [hxname]⟩
    obtain ⟨y, hy⟩ := hfind
    simp [createStatus, JsVal.isNonEmptyString, hne, JsVal.jsToString, hy]
  · intro hne hall
    have hfind : db.statuses.find? (fun z => z.name == jsTrim s) = none :=
      List.find?_eq_none.2 (fun a ha => by simpa using hall a ha)
    refine ⟨{ id := db.nextStatusId, name := jsTrim s, createdAt := db.clock },
      { db with statuses := db.statuses ++ [{ id := db.nextStatusId, name := jsTrim s, createdAt := db.clock }],
                nextStatusId := db.nextStatusId + 1, clock := db.clock + 1 },
      ?_, rfl, rfl, ?_, ?_⟩
    · simp [createStatus, JsVal.isNonEmptyString, hne, JsVal.jsToString, hfind]
    · rw [List.filter_append]
      have h1 : db.statuses.filter (fun x => x.name == jsTrim s) = [] :=
        List.filter_eq_nil_iff.2 (fun a ha => by simpa using hall a ha)
      rw [h1]
      simp
    · intro h2
      have hfind2 : ∃ y,
          (db.statuses ++ [({ id := db.nextStatusId, name := jsTrim s, createdAt := db.clock } : Status)]).find?
            (fun z => z.name == jsTrim s2) = some y := by
        rw [← Option.isSome_iff_exists, List.find?_isSome]
        exact ⟨_, List.mem_append_right _ (List.mem_singleton_self _), by simp [h2]⟩
      obtain ⟨y, hy⟩ := hfind2
      have hne2 : jsTrim s2 ≠ "" := by rw [h2]; exact hne
      simp [createStatus, JsVal.isNonEmptyString, hne2, JsVal.jsToString, hy]
  · intro hne ⟨x, hx, hxname⟩
    have hfind : ∃ y, db.boards.find? (fun z => z.name == jsTrim s) = some y := by
      rw [← Option.isSome_iff_exists, List.find?_isSome]
      exact ⟨x, hx, by simp [hxname]⟩
    obtain ⟨y, hy⟩ := hfind
    simp [createBoard, JsVal.isNonEmptyString, hne, JsVal.jsToString, hy]
  · intro hne hall
    have hfind : db.boards.find? (fun z => z.name == jsTrim s) = none :=
      List.find?_eq_none.2 (fun a ha => by simpa using hall a ha)
    refine ⟨{ id := db.nextBoardId, name := jsTrim s, createdAt := db.clock },
      { db with boards := db.boards ++ [{ id := db.nextBoardId, name := jsTrim s, createdAt := db.clock }],
                nextBoardId := db.nextBoardId + 1, clock := db.clock + 1 },
      ?_, rfl, rfl, ?_, ?_⟩
    · simp [createBoard, JsVal.isNonEmptyString, hne, JsVal.jsToString, hfind]
    · rw [List.filter_append]
      have h1 : db.boards.filter (fun x => x.name == jsTrim s) = [] :=
        List.filter_eq_nil_iff.2 (fun a ha => by simpa using hall a ha)
      rw [h1]
      simp
    · intro h2
      have hfind2 : ∃ y,
          (db.boards ++ [({ id := db.nextBoardId, name := jsTrim s, createdAt := db.clock } : Board)]).find?
            (fun z => z.name == jsTrim s2) = some y := by
        rw [← Option.isSome_iff_exists, List.find?_isSome]
        exact ⟨_, List.mem_append_right _ (List.mem_singleton_self _), by simp [h2]⟩
      obtain ⟨y, hy⟩ := hfind2
      have hne2 : jsTrim s2 ≠ "" := by rw [h2]; exact hne
      simp [createBoard, JsVal.isNonEmptyString, hne2, JsVal.jsToString, hy]

/-- Witness for C5: creating "X" in the empty store succeeds and a
second create of " X " (same trimmed name) conflicts. -/
theorem create_unique_names_witness :
    (∃ st db', createStatus DB.init (.str "X") = .ok (st, db') ∧ st.name = jsTrim "X" ∧
      db'.statuses = DB.init.statuses ++ [st] ∧
      (db'.statuses.filter (fun x => x.name == jsTrim "X")).length = 1 ∧
      (jsTrim " X " = jsTrim "X" →
        createStatus db' (.str " X ") = .error ⟨.conflict, "Status name already exists"⟩)) ∧
    (∃ b db', createBoard DB.init (.str "X") = .ok (b, db') ∧ b.name = jsTrim "X" ∧
      db'.boards = DB.init.boards ++ [b] ∧
      (db'.boards.filter (fun x => x.name == jsTrim "X")).length = 1 ∧
      (jsTrim " X " = jsTrim "X" →
        createBoard db' (.str " X ") = .error ⟨.conflict, "Board name already exists"⟩)) :=
  ⟨(create_unique_names DB.init "X" " X ").2.2.1 (by decide) (by simp [DB.init]),
   (create_unique_names DB.init "X" " X ").2.2.2.2 (by decide) (by simp [DB.init])⟩

/-- C6: task update is partial.  A title update to an empty or
whitespace-only string is rejected with `ValidationError` whatever the
other fields are — and since an error produces no new store state, the
Task keeps every prior field value; a valid title-only update succeeds
and changes exactly the title, leaving description, board, status and the
other Tasks untouched. -/
theorem updateTask_partial_rejects_empty_title {db : DB} {tid : Int} {t0 : Task}
    (hmem : t0 ∈ db.tasks) (hid : t0.id = tid)
    (huniq : ∀ t2 ∈ db.tasks, t2.id = tid → t2 = t0) :
    (∀ s d bi si sn, jsTrim s = "" →
      updateTask db (.num tid) { title := .str s, description := d, boardId := bi, statusId := si, statusName := sn } =
        .error ⟨.validation, "Task title, if provided, must be a non-empty string"⟩) ∧
    (∀ s, jsTrim s ≠ "" →
      ∃ t' db', updateTask db (.num tid) { title := .str s, description := .undef, boardId := .undef, statusId := .undef, statusName := .undef } = .ok (t', db') ∧
        t'.title = jsTrim s ∧ t'.id = t0.id ∧ t'.description = t0.description ∧
        t'.boardId = t0.boardId ∧ t'.statusId = t0.statusId ∧
        t' ∈ db'.tasks ∧
        (∀ t2 ∈ db.tasks, t2.id ≠ tid → t2 ∈ db'.tasks)) := by
  have hfind : db.tasks.find? (fun t => t.id == tid) = some t0 := by
    have hex : ∃ x, db.tasks.find? (fun t => t.id == tid) = some x := by
      rw [← Option.isSome_iff_exists, List.find?_isSome]
      exact ⟨t0, hmem, by simp [hid]⟩
    obtain ⟨x, hx⟩ := hex
    have hxmem : x ∈ db.tasks := List.mem_of_find?_eq_some hx
    have hxid : x.id = tid := by simpa using List.find?_some hx
    rw [hx, huniq x hxmem hxid]
  constructor
  · intro s d bi si sn hempty
    simp [updateTask, parseIntJs, hfind, checkTitleUpd, JsVal.isNonEmptyString, hempty]
  · intro s hs
    refine ⟨{ t0 with title := jsTrim s },
      { db with tasks := db.tasks.map (fun x => if x.id == tid then { t0 with title := jsTrim s } else x) },
      ?_, rfl, rfl, rfl, rfl, rfl, ?_, ?_⟩
    · simp [updateTask, parseIntJs, hfind, checkTitleUpd, checkDescUpd, checkBoardUpd,
        checkStatusUpd, JsVal.isNonEmptyString, JsVal.jsToString, hs]
    · have hmem2 := List.mem_map_of_mem
        (fun x => if x.id == tid then { t0 with title := jsTrim s } else x) hmem
      simpa [hid] using hmem2
    · intro t2 ht2 hne
      have hmem2 := List.mem_map_of_mem
        (fun x => if x.id == tid then { t0 with title := jsTrim s } else x) ht2
      simpa [hne] using hmem2

/-- Witness for C6: in the demo store, updating task 1 with a blank title
is rejected, and a title-only update changes just the title. -/
theorem updateTask_partial_rejects_empty_title_witness :
    (∀ d bi si sn, jsTrim "   " = "" →
      updateTask demoDB3 (.num 1) { title := .str "   ", description := d, boardId := bi, statusId := si, statusName := sn } =
        .error ⟨.validation, "Task title, if provided, must be a non-empty string"⟩) ∧
    (jsTrim " New title " ≠ "" →
      ∃ t' db', updateTask demoDB3 (.num 1) { title := .str " New title ", description := .undef, boardId := .undef, statusId := .undef, statusName := .undef } = .ok (t', db') ∧
        t'.title = jsTrim " New title " ∧ t'.id = demoTask.id ∧
        t'.description = demoTask.description ∧
        t'.boardId = demoTask.boardId ∧ t'.statusId = demoTask.statusId ∧
        t' ∈ db'.tasks ∧
        (∀ t2 ∈ demoDB3.tasks, t2.id ≠ 1 → t2 ∈ db'.tasks)) :=
  ⟨fun d bi si sn h =>
    (@updateTask_partial_rejects_empty_title demoDB3 1 demoTask (by decide) rfl
      (by decide)).1 "   " d bi si sn h,
   fun h =>
    (@updateTask_partial_rejects_empty_title demoDB3 1 demoTask (by decide) rfl
      (by decide)).2 " New title " h⟩

theorem dropWhile_head_false {p : Char → Bool} :
    ∀ {l : List Char} {a : Char} {t : List Char}, l.dropWhile p = a :: t → p a = false := by
  intro l
  induction l with
  | nil => intro a t h; simp at h
  | cons x xs ih =>
    intro a t h
    rw [List.dropWhile_cons] at h
    split at h
    · exact ih h
    · rename_i hx
      injection h with h1 h2
      subst h1
      simpa using hx

theorem jsTrim_eq_empty_iff {s : String} :
    jsTrim s = "" ↔ ∀ c ∈ s.data, isWsChar c = true := by
  constructor
  · intro h
    have hdata : ((s.data.dropWhile isWsChar).reverse.dropWhile isWsChar).reverse = [] :=
      congrArg String.data h
    rw [List.reverse_eq_nil_iff, List.dropWhile_eq_nil_iff] at hdata
    have hdrop : ∀ c ∈ s.data.dropWhile isWsChar, isWsChar c = true := by
      intro c hc
      exact hdata c (List.mem_reverse.2 hc)
    intro c hc
    rw [← List.takeWhile_append_dropWhile (p := isWsChar) (l := s.data)] at hc
    rcases List.mem_append.1 hc with hc | hc
    · exact List.mem_takeWhile_imp hc
    · exact hdrop c hc
  · intro h
    have h1 : s.data.dropWhile isWsChar = [] :=
      List.dropWhile_eq_nil_iff.2 (fun x hx => h x hx)
    show (⟨((s.data.dropWhile isWsChar).reverse.dropWhile isWsChar).reverse⟩ : String) = ""
    rw [h1]
    rfl

theorem jsTrim_ne_empty {s : String} (h : jsTrim s ≠ "") : jsTrim (jsTrim s) ≠ "" := by
  intro hcon
  have hall := jsTrim_eq_empty_iff.1 hcon
  rcases hw : (s.data.dropWhile isWsChar).reverse.dropWhile isWsChar with _ | ⟨a, t⟩
  · refine h ?_
    show (⟨((s.data.dropWhile isWsChar).reverse.dropWhile isWsChar).reverse⟩ : String) = ""
    rw [hw]
    rfl
  · have ha : isWsChar a = false := dropWhile_head_false hw
    have hmem : a ∈ (jsTrim s).data := by
      show a ∈ ((s.data.dropWhile isWsChar).reverse.dropWhile isWsChar).reverse
      rw [hw]
      simp
    have := hall a hmem
    rw [ha] at this
    cases this

theorem joiStringTrimMin1_some_trim_ne {v : JsVal} {t : String}
    (h : joiStringTrimMin1 v = some t) : jsTrim t ≠ "" := by
  cases v with
  | str s =>
    simp only [joiStringTrimMin1] at h
    split at h
    · rename_i hne
      injection h with h
      subst h
      exact jsTrim_ne_empty hne
    · cases h
  | undef => simp [joiStringTrimMin1] at h
  | null => simp [joiStringTrimMin1] at h
  | num n => simp [joiStringTrimMin1] at h

/-- C7: for every task-create request whose boardId does not parse as a
positive integer, the POST /tasks route (the Joi taskCreateSchema
validation wired in routes/router.js, then the createTask controller)
fails with a `ValidationError` — the schema rejects the request before
the controller runs, so no Task is created; for a boardId that is a
positive integer naming no existing Board, in an otherwise schema-valid
body, the request reaches the controller and fails with
`NotFoundError`. -/
theorem postTasks_boardId_errors {db : DB} {body : TaskBody} :
    (joiNumPosInt body.boardId = none →
      ∃ m, postTasks db body = .error ⟨.validation, m⟩) ∧
    (∀ p, joiNumPosInt body.boardId = some p →
      (∀ b ∈ db.boards, b.id ≠ p) →
      joiStringTrimMin1 body.title ≠ none →
      joiDescriptionOk body.description = true →
      joiStatusIdField body.statusId ≠ none →
      joiStatusNameField body.statusName ≠ none →
      postTasks db body = .error ⟨.notFound, "Board not found"⟩) := by
  constructor
  · intro hb
    rcases htitle : joiStringTrimMin1 body.title with _ | tt
    · exact ⟨"title must be a non-empty string",
        by simp [postTasks, validateTaskCreate, htitle]⟩
    · by_cases hdesc : joiDescriptionOk body.description
      · exact ⟨"boardId must be a positive integer",
          by simp [postTasks, validateTaskCreate, htitle, hdesc, hb]⟩
      · exact ⟨"description must be a string",
          by simp [postTasks, validateTaskCreate, htitle, hdesc]⟩
  · intro p hp hnone htitle hdesc hsid hsn
    rcases h1 : joiStringTrimMin1 body.title with _ | tt
    · exact absurd h1 htitle
    rcases h2 : joiStatusIdField body.statusId with _ | si
    · exact absurd h2 hsid
    rcases h3 : joiStatusNameField body.statusName with _ | sn
    · exact absurd h3 hsn
    have htt : jsTrim tt ≠ "" := joiStringTrimMin1_some_trim_ne h1
    have hfind : db.boards.find? (fun b => b.id == p) = none :=
      List.find?_eq_none.2 (fun a ha => by simpa using hnone a ha)
    simp [postTasks, validateTaskCreate, h1, hdesc, hp, h2, h3,
      createTask, JsVal.isNonEmptyString, htt, parseIntJs, hfind]

/-- Witness for C7: boardId -5 (parses, but not positive) and boardId
"abc" (unparseable) are both rejected by validation with 400; boardId 99
in an otherwise valid body passes validation and the controller answers
404 Board not found. -/
theorem postTasks_boardId_errors_witness :
    (∃ m, postTasks demoDB1 { title := .str "T", description := .undef, boardId := .num (-5), statusId := .undef, statusName := .undef } = .error ⟨.validation, m⟩) ∧
    (∃ m, postTasks demoDB1 { title := .str "T", description := .undef, boardId := .str "abc", statusId := .undef, statusName := .undef } = .error ⟨.validation, m⟩) ∧
    postTasks demoDB1 { title := .str "T", description := .undef, boardId := .num 99, statusId := .undef, statusName := .undef } = .error ⟨.notFound, "Board not found"⟩ :=
  ⟨postTasks_boardId_errors.1 (by decide),
   postTasks_boardId_errors.1 (by decide),
   postTasks_boardId_errors.2 99 (by decide) (by decide) (by decide) (by decide)
     (by decide) (by decide)⟩

/-- C8: `getBoards` returns all Boards — a permutation of the Board
table — ordered by creation time descending, and each returned Board
carries exactly the Tasks whose `boardId` equals its id (and no others),
eagerly attached. -/
theorem getBoards_spec (db : DB) :
    ((getBoards db).map BoardWithTasks.board).Perm db.boards ∧
    (getBoards db).Pairwise (fun x y => y.board.createdAt ≤ x.board.createdAt) ∧
    (∀ e ∈ getBoards db, ∀ t, t ∈ e.tasks ↔ (t ∈ db.tasks ∧ t.boardId = e.board.id)) := by
  refine ⟨?_, ?_, ?_⟩
  · unfold getBoards
    rw [List.map_map]
    have hcomp : (BoardWithTasks.board ∘ fun b => ({ board := b, tasks := db.tasks.filter (fun t => t.boardId == b.id) } : BoardWithTasks)) = id := rfl
    rw [hcomp, List.map_id]
    exact List.mergeSort_perm _ _
  · unfold getBoards
    rw [List.pairwise_map]
    have hsorted : List.Pairwise
        (fun a b : Board => (decide (b.createdAt ≤ a.createdAt)) = true)
        (db.boards.mergeSort (fun a b => decide (b.createdAt ≤ a.createdAt))) :=
      List.sorted_mergeSort
        (fun a b c hab hbc => by
          simp only [decide_eq_true_eq] at hab hbc ⊢
          omega)
        (fun a b => by
          rcases Nat.le_total a.createdAt b.createdAt with h | h <;> simp [h])
        db.boards
    exact hsorted.imp (fun h => of_decide_eq_true h)
  · intro e he t
    unfold getBoards at he
    simp only [List.mem_map] at he
    obtain ⟨b, hb, hgb⟩ := he
    subst hgb
    simp [List.mem_filter]

/-- Task stored by the C9 witness create (trimmed title and
description). -/
def demoTask9 : Task :=
  { id := 1, boardId := 1, title := "T", description := some "hi",
    statusId := some 1, createdAt := 2 }

/-- Store state after the C9 witness create. -/
def demoDB9 : DB :=
  { boards := [demoBoard], statuses := [demoStatus], tasks := [demoTask9],
    nextBoardId := 2, nextStatusId := 2, nextTaskId := 2, clock := 3 }

/-- C9 counterexample: a task created with the description "" — present
and non-null — stores description null (`none`), not the trimmed input
string "", because the controller guards the description with JavaScript
truthiness and the empty string is falsy. -/
theorem createTask_empty_description_cex :
    createTask demoDB2
      { title := .str "T", description := .str "", boardId := .num 1, statusId := .num 1, statusName := .undef } =
      .ok ({ id := 1, boardId := 1, title := "T", description := none, statusId := some 1, createdAt := 2 },
        { boards := [demoBoard], statuses := [demoStatus],
          tasks := [{ id := 1, boardId := 1, title := "T", description := none, statusId := some 1, createdAt := 2 }],
          nextBoardId := 2, nextStatusId := 2, nextTaskId := 2, clock := 3 }) ∧
    some (jsTrim "") ≠ (none : Option String) :=
  ⟨rfl, by decide⟩

/-- C9 (amended): on every successful task create the stored title is
the trimmed input title; the stored description is the trimmed input
description when that is a non-empty string, and null when it is absent,
explicitly null, or the empty string. -/
theorem createTask_stored_fields {db : DB} {body : TaskBody} {t : Task} {db' : DB}
    (h : createTask db body = .ok (t, db')) :
    (∀ s, body.title = .str s → t.title = jsTrim s) ∧
    (∀ s, body.description = .str s → s ≠ "" → t.description = some (jsTrim s)) ∧
    ((body.description = .undef ∨ body.description = .null ∨ body.description = .str "") →
      t.description = none) := by
  unfold createTask at h
  split at h
  · split at h
    · exact absurd h (by simp)
    · split at h
      · exact absurd h (by simp)
      · split at h
        · exact absurd h (by simp)
        · injection h with h
          injection h with h1 h2
          subst h1
          refine ⟨?_, ?_, ?_⟩
          · intro s hs
            simp [hs, JsVal.jsToString]
          · intro s hs hne
            simp [hs, JsVal.truthy, JsVal.jsToString, hne]
          · rintro (hd | hd | hd) <;> simp [hd, JsVal.truthy]
  · exact absurd h (by simp)

/-- Witness for C9 (amended): the create with title " T " and
description " hi " stores title "T" and description "hi". -/
theorem createTask_stored_fields_witness :
    demoTask9.title = jsTrim " T " ∧ demoTask9.description = some (jsTrim " hi ") := by
  have h : createTask demoDB2
      { title := .str " T ", description := .str " hi ", boardId := .num 1, statusId := .num 1, statusName := .undef } =
      .ok (demoTask9, demoDB9) := rfl
  exact ⟨(createTask_stored_fields h).1 " T " rfl,
         (createTask_stored_fields h).2.1 " hi " rfl (by decide)⟩

/-- C10: renaming a Board (resp. Status) to its own current name is not
a conflict: when no record with a different id holds that name, the
update succeeds and returns the record still carrying that name. -/
theorem update_own_name_not_conflict (db : DB) (i : Int) :
    (∀ b ∈ db.boards, b.id = i → jsTrim b.name = b.name → b.name ≠ "" →
      (∀ b2 ∈ db.boards, b2.name = b.name → b2.id = i) →
      ∃ r db', updateBoard db (.num i) (.str b.name) = .ok (r, db') ∧
        r.name = b.name ∧ r.id = i) ∧
    (∀ s ∈ db.statuses, s.id = i → jsTrim s.name = s.name → s.name ≠ "" →
      (∀ s2 ∈ db.statuses, s2.name = s.name → s2.id = i) →
      ∃ r db', updateStatus db (.num i) (.str s.name) = .ok (r, db') ∧
        r.name = s.name ∧ r.id = i) := by
  constructor
  · intro b hb hbid htrim hnb huniq
    obtain ⟨x, hx⟩ : ∃ x, db.boards.find? (fun z => z.id == i) = some x := by
      rw [← Option.isSome_iff_exists, List.find?_isSome]
      exact ⟨b, hb, by simp [hbid]⟩
    have hxid : x.id = i := by simpa using List.find?_some hx
    have hconf : db.boards.find? (fun z => z.name == jsTrim b.name && z.id != i) = none := by
      refine List.find?_eq_none.2 (fun a ha => ?_)
      by_cases hname : a.name = b.name
      · have haid : a.id = i := huniq a ha hname
        simp [hname, haid, htrim]
      · simp [htrim, hname]
    refine ⟨{ x with name := jsTrim b.name },
      { db with boards := db.boards.map (fun z => if z.id == i then { z with name := jsTrim b.name } else z) },
      ?_, ?_, ?_⟩
    · have hne : jsTrim b.name ≠ "" := by rw [htrim]; exact hnb
      simp [updateBoard, parseIntJs, JsVal.isNonEmptyString, JsVal.jsToString, hne, hx, hconf]
    · simpa using htrim
    · simpa using hxid
  · intro s hs hsid htrim hns huniq
    obtain ⟨x, hx⟩ : ∃ x, db.statuses.find? (fun z => z.id == i) = some x := by
      rw [← Option.isSome_iff_exists, List.find?_isSome]
      exact ⟨s, hs, by simp [hsid]⟩
    have hxid : x.id = i := by simpa using List.find?_some hx
    obtain ⟨y, hy⟩ : ∃ y, db.statuses.find? (fun z => z.name == jsTrim s.name) = some y := by
      rw [← Option.isSome_iff_exists, List.find?_isSome]
      exact ⟨s, hs, by simp [htrim]⟩
    have hyname : y.name = s.name := by
      have := List.find?_some hy
      simpa [htrim] using this
    have hyid : y.id = i := huniq y (List.mem_of_find?_eq_some hy) hyname
    refine ⟨{ x with name := jsTrim s.name },
      { db with statuses := db.statuses.map (fun z => if z.id == i then { z with name := jsTrim s.name } else z) },
      ?_, ?_, ?_⟩
    · have hne : jsTrim s.name ≠ "" := by rw [htrim]; exact hns
      simp [updateStatus, parseIntJs, JsVal.isNonEmptyString, JsVal.jsToString, hne, hx, hy, hyid]
    · simpa using htrim
    · simpa using hxid

/-- Witness for C10: renaming the demo board and the demo status to
their own current names succeeds. -/
theorem update_own_name_not_conflict_witness :
    (∃ r db', updateBoard demoDB2 (.num 1) (.str demoBoard.name) = .ok (r, db') ∧
      r.name = demoBoard.name ∧ r.id = 1) ∧
    (∃ r db', updateStatus demoDB2 (.num 1) (.str demoStatus.name) = .ok (r, db') ∧
      r.name = demoStatus.name ∧ r.id = 1) :=
  ⟨(update_own_name_not_conflict demoDB2 1).1 demoBoard (by decide) rfl (by decide)
      (by decide) (by decide),
   (update_own_name_not_conflict demoDB2 1).2 demoStatus (by decide) rfl (by decide)
      (by decide) (by decide)⟩

end TaskBoard
